import Mathlib

/-!
Shallow embedding of the coordination core of the idlemail daemon
(src/src/hub.rs, src/src/retryagents/{memory,filesystem}.rs,
src/src/destinations/smtp.rs, src/src/config.rs) together with proofs
about the embedded operations.

Conventions of the embedding:
* `Vec<u8>` mail bodies are `List Nat`; wall-clock `SystemTime` instants
  are `Nat` (seconds); Rust panics are `Except.error` with the panic text.
* `std::sync::mpsc` channels are modelled by their observable effect: a
  send succeeds exactly when the receiving endpoint is still alive, and a
  successful send appends the message to the channel buffer.
* `std::collections::HashMap` registries are association lists with
  distinct keys; `get`/`contains_key` become list lookup/membership.
-/

namespace Idlemail

/-- Stand-in for the external `std::collections::hash_map::DefaultHasher`
used by `Mail::from_rfc822` (src/src/hub.rs lines 29-37).  The hasher is
outside the repository; the only property the program relies on is that it
is a deterministic function of the hashed bytes, which this concrete
function has. -/
def defaultHasherFinish (body : List Nat) : Nat :=
  body.foldl (fun h b => (h * 31 + b) % 2 ^ 64) 5381

/-- Mail record (src/src/hub.rs lines 22-27): immutable carrier of one
message with its origin source name, raw bytes and content fingerprint. -/
structure Mail where
  from_src : String
  data : List Nat
  hash : String
deriving DecidableEq

/-- `Mail::from_rfc822` (src/src/hub.rs lines 29-37): hashes the body and
stores the stringified fingerprint next to the raw bytes. -/
def Mail.from_rfc822 (srcname : String) (body : List Nat) : Mail :=
  { from_src := srcname, data := body, hash := toString (defaultHasherFinish body) }

/-- `HubMessage` (src/src/hub.rs lines 40-56): the message kinds carried on
the hub inbox. -/
inductive HubMessage where
  | NewMail (srcname : String) (mail : Mail)
  | RetryMail (dstname : String) (mail : Mail)
  | SendingMailFailed (dstname : String) (mail : Mail)
  | Shutdown
  | RetryAgentSuspended
deriving DecidableEq

/-- Observable state of `HubChannel` (src/src/hub.rs lines 57-77) as far as
`handle_message` dispatch is concerned.

* `destinations`: the names registered in the `destinations` map whose
  receiving endpoint (handed to the destination worker at start) is alive;
  `queue_mail_for_sending` succeeds exactly for these names.
* `retryagentSenderPresent`: whether the `retryagent_sender` field still
  holds `Some` (it is `Some` from `HubChannel::new` until
  `shutdown_retryagent` takes it).
* `retryagentRecvTaken`: whether `get_retryagent_channel` was called,
  moving the receiving endpoint out of the `HubChannel` to the retry agent
  (this happens exactly when a retry agent is configured).
* `retryagentAlive`: whether the retry-agent worker thread (which owns the
  receiving endpoint once taken) is still running. -/
structure HubChannelState where
  destinations : List String
  retryagentSenderPresent : Bool
  retryagentRecvTaken : Bool
  retryagentAlive : Bool
deriving DecidableEq

/-- `HashMap::get` on the `mappings` table (`HashMap<String, Vec<String>>`,
association list with distinct keys in the embedding). -/
def lookupMapping (mappings : List (String × List String)) (srcname : String) :
    Option (List String) :=
  (mappings.find? (fun p => p.1 == srcname)).map Prod.snd

/-- `HubChannel::queue_mail_for_sending` (src/src/hub.rs lines 86-91):
looks the destination up in the registry and sends `DeliverMail` on its
inbox; `none` models the `Err(())` that `handle_message` turns into a
panic via `.expect`.  A send on a registered destination succeeds because
the destination worker holds the receiving endpoint while registered. -/
def queueMailForSending (st : HubChannelState) (dstname : String) (mail : Mail) :
    Option (String × Mail) :=
  if st.destinations.contains dstname then some (dstname, mail) else none

/-- Is the receiving endpoint of the retry-agent control channel alive?
If `get_retryagent_channel` was never called the receiver still sits
inside the `HubChannel` itself (field `retryagent_recv`), so it is alive;
otherwise it is alive while the retry-agent thread runs. -/
def retryReceiverAlive (st : HubChannelState) : Bool :=
  !st.retryagentRecvTaken || st.retryagentAlive

/-- `HubChannel::queue_mail_for_retry` (src/src/hub.rs lines 93-103):
`retryagent_sender.as_ref().unwrap()` panics if the sender was already
taken; otherwise the send succeeds exactly when the receiver is alive.

Result `(warned, buffered)`: `warned` is true when the send failed and the
"Failed to queue mail for retransmission" warning was logged (the mail is
then dropped); `buffered` holds the `QueueRetry` message appended to the
control-channel buffer when the send succeeded. -/
def queueMailForRetry (st : HubChannelState) (dstname : String) (mail : Mail) :
    Except String (Bool × Option (String × Mail)) :=
  if !st.retryagentSenderPresent then
    Except.error "called Option.unwrap on a None value"
  else if retryReceiverAlive st then
    Except.ok (false, some (dstname, mail))
  else
    Except.ok (true, none)

/-- Everything one `MailHub::handle_message` call observably does. -/
structure Dispatch where
  /-- `DeliverMail` sends onto destination inboxes, in send order. -/
  deliveries : List (String × Mail) := []
  /-- `QueueRetry` messages buffered on the retry-agent control channel. -/
  retryChannelSends : List (String × Mail) := []
  /-- whether the `queue_mail_for_retry` warning was logged -/
  warned : Bool := false
  /-- the `bool` that `handle_message` returns (true = leave the loop) -/
  stop : Bool := false
deriving DecidableEq

/-- The fan-out loop inside the `NewMail` arm of `handle_message`
(src/src/hub.rs lines 326-331): one `queue_mail_for_sending` per listed
destination name, each `.expect("Failed to distribute mail")`. -/
def sendAll (st : HubChannelState) (mail : Mail) :
    List String → Except String (List (String × Mail))
  | [] => Except.ok []
  | dstname :: rest =>
    match queueMailForSending st dstname mail with
    | none => Except.error "Failed to distribute mail"
    | some d => (sendAll st mail rest).map (fun ds => d :: ds)

/-- `MailHub::handle_message` (src/src/hub.rs lines 315-346). -/
def handleMessage (st : HubChannelState) (mappings : List (String × List String)) :
    HubMessage → Except String Dispatch
  | HubMessage.Shutdown => Except.ok { stop := true }
  | HubMessage.RetryAgentSuspended => Except.ok { stop := true }
  | HubMessage.NewMail srcname mail =>
    match lookupMapping mappings srcname with
    | none => Except.ok {}
    | some dstlist =>
      (sendAll st mail dstlist).map (fun ds => { deliveries := ds })
  | HubMessage.SendingMailFailed dstname mail =>
    (queueMailForRetry st dstname mail).map
      (fun r => { retryChannelSends := r.2.toList, warned := r.1 })
  | HubMessage.RetryMail dstname mail =>
    match queueMailForSending st dstname mail with
    | none => Except.error "Failed to distribute mail"
    | some d => Except.ok { deliveries := [d] }

/-! ## Retry agents (src/src/retryagents/memory.rs, filesystem.rs)

Both agent files match their control messages against the two variants
`RetryAgentMessage::Shutdown` and `RetryAgentMessage::QueueMail`.  (Note:
src/src/hub.rs declares `RetryAgentMessage` with the variants `QueueMail`
and `Suspend` instead, and documents that a `Suspend` must be answered by
`confirm_suspension`; the agent files contain no `Suspend` arm and no
`confirm_suspension` call.)  The embedding below follows the agent files. -/

/-- The control-message variants the retry-agent worker loops match on
(src/src/retryagents/memory.rs lines 38-51, filesystem.rs lines 118-173). -/
inductive AgentCtlMessage where
  | Shutdown
  | QueueMail (dstname : String) (mail : Mail)
deriving DecidableEq

/-- One iteration of an agent worker loop, as seen from outside:
the result of the 1-second `next_timeout` receive (`none` = timeout
elapsed with no message), the `SystemTime::now()` read while handling a
`QueueMail`, and the `SystemTime::now()` read before the due-scan. -/
structure AgentStep where
  ctl : Option AgentCtlMessage
  tRecv : Nat
  tScan : Nat

/-- One entry of the memory backend queue:
`(SystemTime, String, Mail)` (src/src/retryagents/memory.rs line 33). -/
structure MemEntry where
  due : Nat
  dstname : String
  mail : Mail
deriving DecidableEq

/-- The due-scan of the memory backend (src/src/retryagents/memory.rs
lines 54-65): `for i in 0..queue.len()` checks `queue.get(i).unwrap().0 <
now` and, when due, emits the entry popped from the *front*; `len` is the
queue length at loop entry, and popping shifts the indices under the
still-advancing counter `i`.  `Except.error` models the panic of
`.unwrap()` on the `None` returned by an out-of-range `get(i)`. -/
def memoryScanLoop (now : Nat) :
    Nat → Nat → List MemEntry → List HubMessage →
    Except String (List HubMessage × List MemEntry)
  | 0, _, queue, out => Except.ok (out, queue)
  | fuel + 1, i, queue, out =>
    match queue[i]? with
    | none => Except.error "called Option.unwrap on a None value"
    | some e =>
      if e.due < now then
        match queue with
        | [] => Except.error "called Option.unwrap on a None value"
        | front :: rest =>
          memoryScanLoop now fuel (i + 1) rest
            (out ++ [HubMessage.RetryMail front.dstname front.mail])
      else
        Except.ok (out, queue)

/-- The due-scan as entered from the loop body: `queue.len()` is read once
and the counter starts at 0, so the loop runs while `i < len`; the `fuel`
argument of `memoryScanLoop` carries `len - i`, which is positive exactly
when `i < len`. -/
def memoryScan (now : Nat) (queue : List MemEntry) :
    Except String (List HubMessage × List MemEntry) :=
  memoryScanLoop now queue.length 0 queue []

/-- The worker loop of `MemoryRetryAgent::start`
(src/src/retryagents/memory.rs lines 32-67), run over a finite trace of
loop iterations.  `QueueMail` pushes `(now + delay, dstname, mail)` to the
back; `Shutdown` returns from the thread; every iteration then scans for
due entries.  The result collects every `notify_retry_mail` hub message,
or the panic text if a scan panics. -/
def memoryAgentRun (delay : Nat) : List MemEntry → List AgentStep →
    Except String (List HubMessage)
  | _, [] => Except.ok []
  | queue, step :: rest =>
    match step.ctl with
    | some AgentCtlMessage.Shutdown => Except.ok []
    | some (AgentCtlMessage.QueueMail dstname mail) =>
      match memoryScan step.tScan
          (queue ++ [⟨step.tRecv + delay, dstname, mail⟩]) with
      | Except.error e => Except.error e
      | Except.ok (emitted, queue2) =>
        (memoryAgentRun delay queue2 rest).map (fun out => emitted ++ out)
    | none =>
      match memoryScan step.tScan queue with
      | Except.error e => Except.error e
      | Except.ok (emitted, queue2) =>
        (memoryAgentRun delay queue2 rest).map (fun out => emitted ++ out)

/-- Minimal JSON value tree, the target of `serde_json::to_writer` and the
source of `serde_json::from_reader` in the filesystem backend. -/
inductive Json where
  | num (n : Nat)
  | str (s : String)
  | arr (items : List Json)
  | obj (fields : List (String × Json))

/-- `QueuedRetryMailModel` (src/src/retryagents/filesystem.rs lines
14-21): the serialized record `due_time`, `dstname`, `mail_from_src`,
`mail_data`. -/
structure QueuedRetryMailModel where
  due_time : Nat
  dstname : String
  mail_from_src : String
  mail_data : List Nat
deriving DecidableEq

/-- `QueuedRetryMail` (src/src/retryagents/filesystem.rs lines 33-38). -/
structure QueuedRetryMail where
  due_time : Nat
  dstname : String
  mail : Mail
  file_path : String
deriving DecidableEq

/-- `impl From<&QueuedRetryMail> for QueuedRetryMailModel`
(src/src/retryagents/filesystem.rs lines 22-31). -/
def QueuedRetryMailModel.ofQueued (q : QueuedRetryMail) : QueuedRetryMailModel :=
  { due_time := q.due_time, dstname := q.dstname,
    mail_from_src := q.mail.from_src, mail_data := q.mail.data }

/-- Serialization of the record by field (`serde_json::to_writer` on
`QueuedRetryMailModel`, derived `Serialize`). -/
def QueuedRetryMailModel.toJson (m : QueuedRetryMailModel) : Json :=
  Json.obj
    [("due_time", Json.num m.due_time),
     ("dstname", Json.str m.dstname),
     ("mail_from_src", Json.str m.mail_from_src),
     ("mail_data", Json.arr (m.mail_data.map Json.num))]

/-- Field lookup in a JSON object (serde matches fields by name). -/
def jsonField (fields : List (String × Json)) (key : String) : Option Json :=
  (fields.find? (fun f => f.1 == key)).map Prod.snd

/-- A JSON array of numbers as a byte list. -/
def jsonNats : List Json → Option (List Nat)
  | [] => some []
  | Json.num n :: rest => (jsonNats rest).map (fun l => n :: l)
  | _ => none

/-- Deserialization of the record (`serde_json::from_reader` on
`QueuedRetryMailModel`, derived `Deserialize` with
`deny_unknown_fields`): every present field must be one of the four known
ones, all four must be present with the right shapes. -/
def QueuedRetryMailModel.fromJson? : Json → Option QueuedRetryMailModel
  | Json.obj fields =>
    if fields.all (fun f =>
        f.1 == "due_time" || f.1 == "dstname" ||
        f.1 == "mail_from_src" || f.1 == "mail_data") then
      match jsonField fields "due_time", jsonField fields "dstname",
          jsonField fields "mail_from_src", jsonField fields "mail_data" with
      | some (Json.num dt), some (Json.str dn), some (Json.str src),
          some (Json.arr items) =>
        (jsonNats items).map (fun bytes => ⟨dt, dn, src, bytes⟩)
      | _, _, _, _ => none
    else none
  | _ => none

/-- The on-disk working set of the filesystem backend: a flat directory as
an association list from file path to (parsed) file content. -/
abbrev FsState := List (String × Json)

/-- `fs::File::create` (std): "This function will create a file if it does
not exist, and will truncate it if it does."  Absent operating-system
errors (permissions, missing directory), creation always succeeds; in
particular an already existing path does NOT make it fail. -/
def fsCreateOk (_fs : FsState) (_path : String) : Bool := true

/-- Writing the serialized record into the created file: the path maps to
the new content afterwards, replacing any previous content. -/
def fsWrite (fs : FsState) (path : String) (content : Json) : FsState :=
  if (List.any fs (fun p => p.1 == path)) then
    List.map (fun p => if p.1 == path then (path, content) else p) fs
  else
    fs ++ [(path, content)]

/-- `fs::remove_file`: drops the path; a missing path is the logged-only
warning case (the agent tolerates it). -/
def fsRemove (fs : FsState) (path : String) : FsState :=
  List.filter (fun p => !(p.1 == path)) fs

/-- The candidate filename of attempt `i`
(src/src/retryagents/filesystem.rs lines 143-146). -/
def retryFileName (cfgPath hash dstname : String) (i : Nat) : String :=
  cfgPath ++ "/" ++ hash ++ "_to_" ++ dstname ++ "-" ++ toString i ++ ".json"

/-- The filename-candidate loop `for i in 0..10` of the `QueueMail` arm
(src/src/retryagents/filesystem.rs lines 141-172): the first index whose
`File::create` succeeds gets the record written to it and the entry is
pushed; if all ten fail, the entry is silently lost.  `fuel` counts the
remaining indices (`10 - i`). -/
def fsQueueMailTry (cfgPath : String) (due : Nat) (dstname : String) (mail : Mail) :
    Nat → Nat → FsState → FsState × Option QueuedRetryMail
  | _, 0, fs => (fs, none)
  | i, fuel + 1, fs =>
    let name := retryFileName cfgPath mail.hash dstname i
    if fsCreateOk fs name then
      let rm : QueuedRetryMail :=
        { due_time := due, dstname := dstname, mail := mail, file_path := name }
      (fsWrite fs name (QueuedRetryMailModel.ofQueued rm).toJson, some rm)
    else
      fsQueueMailTry cfgPath due dstname mail (i + 1) fuel fs

/-- The whole `QueueMail` arm of the filesystem backend: due time is
`now + delay`, then the candidate loop starting at index 0. -/
def fsQueueMail (cfgPath : String) (due : Nat) (dstname : String) (mail : Mail)
    (fs : FsState) : FsState × Option QueuedRetryMail :=
  fsQueueMailTry cfgPath due dstname mail 0 10 fs

/-- The due-scan of the filesystem backend
(src/src/retryagents/filesystem.rs lines 176-202): `while !queue.is_empty()`
checks the *front* entry, pops it, emits `RetryMail` and removes its file;
the first not-yet-due entry stops the scan.  Returns the emitted hub
messages, the remaining queue and the directory afterwards. -/
def fsScanLoop (now : Nat) : List QueuedRetryMail → FsState →
    List HubMessage → List HubMessage × List QueuedRetryMail × FsState
  | [], fs, out => (out, [], fs)
  | q :: qs, fs, out =>
    if q.due_time < now then
      fsScanLoop now qs (fsRemove fs q.file_path)
        (out ++ [HubMessage.RetryMail q.dstname q.mail])
    else
      (out, q :: qs, fs)

/-- The worker loop of `FilesystemRetryAgent::start`
(src/src/retryagents/filesystem.rs lines 115-203), run over a finite trace
of loop iterations, starting from a queue and a directory state.  Returns
every `notify_retry_mail` hub message together with the final directory. -/
def fsAgentRun (delay : Nat) (cfgPath : String) :
    List QueuedRetryMail → FsState → List AgentStep → List HubMessage × FsState
  | _, fs, [] => ([], fs)
  | queue, fs, step :: rest =>
    match step.ctl with
    | some AgentCtlMessage.Shutdown => ([], fs)
    | some (AgentCtlMessage.QueueMail dstname mail) =>
      let created := fsQueueMail cfgPath (step.tRecv + delay) dstname mail fs
      let queue1 := queue ++ created.2.toList
      let scanned := fsScanLoop step.tScan queue1 created.1 []
      let tail := fsAgentRun delay cfgPath scanned.2.1 scanned.2.2 rest
      (scanned.1 ++ tail.1, tail.2)
    | none =>
      let scanned := fsScanLoop step.tScan queue fs []
      let tail := fsAgentRun delay cfgPath scanned.2.1 scanned.2.2 rest
      (scanned.1 ++ tail.1, tail.2)

/-- The entry rebuilt from one parsed retry-file
(src/src/retryagents/filesystem.rs lines 71-76): the `Mail` is
reconstructed with `Mail::from_rfc822`, recomputing the hash from the
stored bytes. -/
def restoredOf (path : String) (m : QueuedRetryMailModel) : QueuedRetryMail :=
  { due_time := m.due_time, dstname := m.dstname,
    mail := Mail.from_rfc822 m.mail_from_src m.mail_data, file_path := path }

/-- `FilesystemRetryAgent::load_from_fs`
(src/src/retryagents/filesystem.rs lines 54-80): enumerate the directory,
keep paths ending in `.json`, parse each as a `QueuedRetryMailModel`
(skipping unreadable or unparseable files) and rebuild the entries. -/
def loadFromFs (fs : FsState) : List QueuedRetryMail :=
  fs.filterMap (fun f =>
    if f.1.endsWith ".json" then
      (QueuedRetryMailModel.fromJson? f.2).map (restoredOf f.1)
    else none)

/-- Startup of `FilesystemRetryAgent::start`
(src/src/retryagents/filesystem.rs lines 99-113): the restored entries are
sorted by `due_time` (`sort_by_key`) to form the initial queue. -/
def fsStartQueue (fs : FsState) : List QueuedRetryMail :=
  (loadFromFs fs).mergeSort (fun a b => decide (a.due_time ≤ b.due_time))

/-! ## SMTP destination worker (src/src/destinations/smtp.rs) -/

/-- The message variants the destination worker loops match on
(src/src/destinations/smtp.rs lines 94-110). -/
inductive DstMessage where
  | Shutdown
  | Mail (mail : Mail)
deriving DecidableEq

/-- Outcome of one `mailer.send_raw` call, as the external lettre library
reports it.  `permanent` records whether the underlying failure was a
recognised permanent (5xx) SMTP response; the worker code never reads
it. -/
structure SmtpSendOutcome where
  success : Bool
  permanent : Bool
deriving DecidableEq

/-- The `DestinationMessage::Mail` arm of the SMTP worker loop
(src/src/destinations/smtp.rs lines 99-109): on `Ok` it logs and posts
nothing; on any `Err` it logs at ERROR and calls
`channel.notify_failed_send(mail)`, posting `SendingMailFailed` on the hub
inbox. -/
def smtpHandleMail (name : String) (mail : Mail) (outcome : SmtpSendOutcome) :
    List HubMessage :=
  if outcome.success then []
  else [HubMessage.SendingMailFailed name mail]

/-- The SMTP worker loop (src/src/destinations/smtp.rs lines 93-111) over
a finite inbox where each delivered mail comes with its send outcome:
`Shutdown` (or closure of the channel, = end of the list) ends the loop.
Returns every hub message the worker posted. -/
def smtpRun (name : String) : List (DstMessage × SmtpSendOutcome) → List HubMessage
  | [] => []
  | (DstMessage.Shutdown, _) :: _ => []
  | (DstMessage.Mail mail, outcome) :: rest =>
    smtpHandleMail name mail outcome ++ smtpRun name rest

/-! ## Configuration loading (src/src/config.rs) -/

/-- `RetryAgentConfig` (src/src/config.rs lines 174-182). -/
inductive RetryAgentConfig where
  | memory (delay : Nat)
  | filesystem (delay : Nat) (path : String)
deriving DecidableEq

/-- `ConfigContainer` (src/src/config.rs lines 4-11).  `validate` only
queries the destination and source maps through `contains_key`, so the
embedding keeps their key sets; the mapping table and the retry-agent
configuration are kept in full. -/
structure ConfigContainer where
  destinations : List String
  sources : List String
  retryagent : Option RetryAgentConfig
  mappings : List (String × List String)

/-- The inner loop of `validate` over one mapping entry value
(src/src/config.rs lines 26-33). -/
def checkMappingDsts (c : ConfigContainer) : List String → Except String Unit
  | [] => Except.ok ()
  | dstname :: rest =>
    if !(c.destinations.contains dstname) then
      Except.error ("Unknown destination: " ++ dstname ++ " specified in mappings")
    else checkMappingDsts c rest

/-- The outer loop of `validate` over the mapping entries
(src/src/config.rs lines 22-34). -/
def checkMappings (c : ConfigContainer) : List (String × List String) → Except String Unit
  | [] => Except.ok ()
  | (srcname, dsts) :: rest =>
    if !(c.sources.contains srcname) then
      Except.error ("Unknown source: " ++ srcname ++ " specified in mappings")
    else
      match checkMappingDsts c dsts with
      | Except.error e => Except.error e
      | Except.ok _ => checkMappings c rest

/-- The loop of `validate` over the configured sources
(src/src/config.rs lines 35-39): every source must appear as a mappings
key. -/
def checkSourcesMapped (c : ConfigContainer) : List String → Except String Unit
  | [] => Except.ok ()
  | srcname :: rest =>
    if !(List.any c.mappings (fun p => p.1 == srcname)) then
      Except.error ("Source: " ++ srcname ++ " has no mapping")
    else checkSourcesMapped c rest

/-- The retry-agent check of `validate` (src/src/config.rs lines 40-44):
a filesystem retry agent requires its `path` to exist.  `fsExists` is the
external `Path::exists` observation. -/
def checkRetryPath (c : ConfigContainer) (fsExists : String → Bool) :
    Except String Unit :=
  match c.retryagent with
  | some (RetryAgentConfig.filesystem _ path) =>
    if !(fsExists path) then
      Except.error "FilesystemRetryAgent: Path does not exist"
    else Except.ok ()
  | _ => Except.ok ()

/-- `ConfigContainer::validate` (src/src/config.rs lines 21-46). -/
def ConfigContainer.validate (c : ConfigContainer) (fsExists : String → Bool) :
    Except String Unit :=
  match checkMappings c c.mappings with
  | Except.error e => Except.error e
  | Except.ok _ =>
    match checkSourcesMapped c c.sources with
    | Except.error e => Except.error e
    | Except.ok _ => checkRetryPath c fsExists

/-- `ConfigContainer::from_file` (src/src/config.rs lines 13-20).
`parsed` is the outcome of opening and `serde_json`-parsing the file
(`none` covers an unopenable file, malformed JSON, a missing or mistyped
field, and an unknown field — the container and every spec type carry
`deny_unknown_fields`); a parsed container is then validated. -/
def fromFile (parsed : Option ConfigContainer) (fsExists : String → Bool) :
    Except String ConfigContainer :=
  match parsed with
  | none => Except.error "Failed to parse config file"
  | some config =>
    match config.validate fsExists with
    | Except.error e => Except.error e
    | Except.ok _ => Except.ok config

/-! ## The hub loop and the shutdown sequence (src/src/hub.rs `MailHub::run`) -/

/-- The externally visible operations `MailHub::run` performs, in program
order (src/src/hub.rs lines 348-420). -/
inductive HubAction where
  /-- one `handle_message` call on a received hub-inbox message -/
  | dispatch (msg : HubMessage)
  /-- `hubchannel.shutdown_sources()`: every per-source control channel closed -/
  | closeSourceChannels
  | joinSource (name : String)
  /-- `hubchannel.suspend_retryagent()`: `Suspend` sent on the retry control channel -/
  | sendSuspend
  /-- `hubchannel.shutdown_destinations()`: every destination inbox closed -/
  | closeDestinationInboxes
  | joinDestination (name : String)
  /-- `hubchannel.shutdown_retryagent()`: the retry control channel closed -/
  | closeRetryChannel
  | joinRetryAgent
deriving DecidableEq

/-- How a blocking `loop { next(); handle_message }` ends. -/
inductive LoopExit where
  /-- `handle_message` panicked on the last dispatched message -/
  | panicked (acts : List HubAction)
  /-- the inbox trace ran out while `next()` would still block -/
  | blocked (acts : List HubAction)
  /-- `handle_message` returned true; the unconsumed trace remains -/
  | broke (acts : List HubAction) (rest : List HubMessage)
deriving DecidableEq

/-- Prefix the actions of a loop exit. -/
def LoopExit.prepend (pre : List HubAction) : LoopExit → LoopExit
  | LoopExit.panicked a => LoopExit.panicked (pre ++ a)
  | LoopExit.blocked a => LoopExit.blocked (pre ++ a)
  | LoopExit.broke a r => LoopExit.broke (pre ++ a) r

/-- A blocking receive loop of `MailHub::run` (src/src/hub.rs lines
367-372 and 392-397): receive one message, dispatch it with
`handle_message`, leave the loop when that returns true. -/
def hubLoop (st : HubChannelState) (mappings : List (String × List String)) :
    List HubMessage → LoopExit
  | [] => LoopExit.blocked []
  | msg :: rest =>
    match handleMessage st mappings msg with
    | Except.error _ => LoopExit.panicked [HubAction.dispatch msg]
    | Except.ok d =>
      if d.stop then LoopExit.broke [HubAction.dispatch msg] rest
      else (hubLoop st mappings rest).prepend [HubAction.dispatch msg]

/-- The non-blocking flush loop `while let Some(msg) = try_next()`
(src/src/hub.rs lines 410-412): dispatches everything still buffered.
Returns whether a dispatch panicked, and the actions. -/
def hubFlush (st : HubChannelState) (mappings : List (String × List String)) :
    List HubMessage → Bool × List HubAction
  | [] => (false, [])
  | msg :: rest =>
    match handleMessage st mappings msg with
    | Except.error _ => (true, [HubAction.dispatch msg])
    | Except.ok _ =>
      let tail := hubFlush st mappings rest
      (tail.1, HubAction.dispatch msg :: tail.2)

/-- How the modelled `MailHub::run` ends. -/
inductive RunResult where
  | panicked (acts : List HubAction)
  | blocked (acts : List HubAction)
  | finished (acts : List HubAction)
deriving DecidableEq

/-- `MailHub::run` from the distribution loop on (src/src/hub.rs lines
366-420), over the trace `inbox` of messages arriving on the hub inbox:
the distribution loop runs until `handle_message` returns true; then the
per-source control channels are closed and every source joined; then
`Suspend` is sent and the inbox drained with normal dispatch until
`handle_message` again returns true; then every destination inbox is
closed and every destination joined; then the remaining buffered messages
are flushed non-blockingly — with the destination registry now cleared by
`shutdown_destinations` — and last the retry control channel is closed and
the retry agent joined (when one is configured). -/
def runFromDistributionLoop (st : HubChannelState)
    (mappings : List (String × List String)) (sourceNames destNames : List String)
    (hasRetryAgent : Bool) (inbox : List HubMessage) : RunResult :=
  match hubLoop st mappings inbox with
  | LoopExit.panicked a => RunResult.panicked a
  | LoopExit.blocked a => RunResult.blocked a
  | LoopExit.broke a rest1 =>
    let a1 := a ++ [HubAction.closeSourceChannels] ++
      sourceNames.map HubAction.joinSource ++ [HubAction.sendSuspend]
    match hubLoop st mappings rest1 with
    | LoopExit.panicked b => RunResult.panicked (a1 ++ b)
    | LoopExit.blocked b => RunResult.blocked (a1 ++ b)
    | LoopExit.broke b rest2 =>
      let a2 := a1 ++ b ++ [HubAction.closeDestinationInboxes] ++
        destNames.map HubAction.joinDestination
      let flushed := hubFlush { st with destinations := [] } mappings rest2
      if flushed.1 then RunResult.panicked (a2 ++ flushed.2)
      else
        RunResult.finished (a2 ++ flushed.2 ++ [HubAction.closeRetryChannel] ++
          (if hasRetryAgent then [HubAction.joinRetryAgent] else []))

/-! ## Derived trace operators and concrete inputs -/

/-- Sequential processing of a trace of `NewMail` events by the
distribution loop, collecting every `DeliverMail` send in hub-dispatch
order (the loop of src/src/hub.rs lines 367-372 restricted to `NewMail`
messages). -/
def fanoutDeliveries (st : HubChannelState) (mappings : List (String × List String)) :
    List (String × Mail) → Except String (List (String × Mail))
  | [] => Except.ok []
  | (srcname, mail) :: rest =>
    match handleMessage st mappings (HubMessage.NewMail srcname mail) with
    | Except.error e => Except.error e
    | Except.ok d =>
      (fanoutDeliveries st mappings rest).map (fun ds => d.deliveries ++ ds)

/-- The hub messages of a worker-run result (empty on a panic). -/
def emittedOf (r : Except String (List HubMessage)) : List HubMessage :=
  match r with
  | Except.ok out => out
  | Except.error _ => []

/-- The hub messages a due-scan emitted (empty on a panic). -/
def scanEmitted (r : Except String (List HubMessage × List MemEntry)) :
    List HubMessage :=
  match r with
  | Except.ok p => p.1
  | Except.error _ => []

/-- Does dispatching `m` neither panic nor leave the loop?  (Computable
restatement of one `handle_message` call returning `false`.) -/
def dispatchContinues (st : HubChannelState) (mappings : List (String × List String))
    (m : HubMessage) : Bool :=
  match handleMessage st mappings m with
  | Except.ok d => !d.stop
  | Except.error _ => false

/-- Is a destination-inbox message the `Shutdown` variant? -/
def isShutdownDst : DstMessage → Bool
  | DstMessage.Shutdown => true
  | DstMessage.Mail _ => false

/-- A concrete mail as a source constructs it (empty body, hash "5381"). -/
def mailA : Mail := Mail.from_rfc822 "testsrc" []

/-- A second concrete mail with a different body. -/
def mailB : Mail := Mail.from_rfc822 "testsrc" [42]

/-- The hub channel state of a run configured *without* a retry agent:
`HubChannel::new` filled `retryagent_sender` and `retryagent_recv` with
the two ends of a fresh channel, and `get_retryagent_channel` was never
called, so the receiving end still sits inside the `HubChannel`. -/
def stWithoutRetryAgent : HubChannelState :=
  { destinations := ["dst"], retryagentSenderPresent := true,
    retryagentRecvTaken := false, retryagentAlive := false }

/-! ## Theorems -/

/-- C4: the claim says a RUNNING-state scan emits every due entry and
never panics, for any queue length and any number of simultaneously due
entries, in both backends.  The memory backend violates this: with a
two-entry queue whose first entry is due, its scan loop pops the front
while indexing with the still-advancing counter, so the second iteration
calls `queue.get(1).unwrap()` on a one-element queue and panics.  The
filesystem backend's scan of the same queue emits both due entries and
keeps running. -/
theorem memory_scan_panics_on_two_due_entries :
    memoryScan 1 [⟨0, "d1", mailA⟩, ⟨0, "d2", mailA⟩] =
      Except.error "called Option.unwrap on a None value" ∧
    (fsScanLoop 1 [⟨0, "d1", mailA, "a.json"⟩, ⟨0, "d2", mailA, "b.json"⟩] [] []).1 =
      [HubMessage.RetryMail "d1" mailA, HubMessage.RetryMail "d2" mailA] :=
  ⟨rfl, rfl⟩

/-- C6: the claim says the candidate-filename loop never overwrites an
existing pending retry file and that queueing the same mail for the same
destination twice yields two distinct files.  Because `fs::File::create`
succeeds on an existing path (truncating it), the attempt at index 0
always succeeds: queueing the same mail for the same destination a second
time while the first entry is pending reuses the index-0 filename and
overwrites the pending file, leaving a single file on disk. -/
theorem queue_retry_overwrites_pending_file :
    (fsQueueMail "/spool" 10 "d" mailA []).1 =
      [(retryFileName "/spool" mailA.hash "d" 0,
        (QueuedRetryMailModel.mk 10 "d" mailA.from_src mailA.data).toJson)] ∧
    (fsQueueMail "/spool" 20 "d" mailA (fsQueueMail "/spool" 10 "d" mailA []).1).1 =
      [(retryFileName "/spool" mailA.hash "d" 0,
        (QueuedRetryMailModel.mk 20 "d" mailA.from_src mailA.data).toJson)] :=
  ⟨rfl, rfl⟩

/-- C7: the claim says that with no retry agent configured a
`DeliveryFailed` is answered by a logged warning and the mail is dropped.
In the code the warning fires only when the channel send fails, but the
receiving end of the retry control channel still sits inside the
`HubChannel` itself when no agent was configured, so the send succeeds:
no warning is logged and the `QueueRetry` message is silently retained in
the never-read channel buffer. -/
theorem retry_without_agent_silently_retained :
    handleMessage stWithoutRetryAgent [] (HubMessage.SendingMailFailed "dst" mailA) =
      Except.ok { retryChannelSends := [("dst", mailA)], warned := false } ∧
    stWithoutRetryAgent.retryagentRecvTaken = false :=
  ⟨rfl, rfl⟩

/-- C8 counterexample: the claim says a send attempt failing with a
recognised permanent (5xx) failure is dropped without posting
`DeliveryFailed`.  The SMTP worker's `Err` arm posts `SendingMailFailed`
for every failure; at a permanent-failure outcome it posts exactly one. -/
theorem smtp_permanent_failure_reported_counterexample :
    smtpHandleMail "smtpdst" mailA { success := false, permanent := true } =
      [HubMessage.SendingMailFailed "smtpdst" mailA] ∧
    smtpHandleMail "smtpdst" mailA { success := false, permanent := true } ≠ [] :=
  ⟨rfl, by simp [smtpHandleMail]⟩

/-- C8 amended: the SMTP destination makes no permanent/transient
distinction: the worker loop posts exactly one `SendingMailFailed` for
every failed send attempt — recognised 5xx outcomes included — and none
for a successful one, until a `Shutdown` message or channel closure ends
the loop. -/
theorem smtp_every_failure_reported (name : String)
    (steps : List (DstMessage × SmtpSendOutcome)) :
    smtpRun name steps =
      (steps.takeWhile (fun p => !isShutdownDst p.1)).filterMap
        (fun p =>
          match p.1 with
          | DstMessage.Mail m =>
            if p.2.success then none else some (HubMessage.SendingMailFailed name m)
          | DstMessage.Shutdown => none) := by
  induction steps with
  | nil => rfl
  | cons head rest ih =>
    match head with
    | (DstMessage.Shutdown, outcome) => rfl
    | (DstMessage.Mail m, outcome) =>
      by_cases h : outcome.success = true
      · simp [smtpRun, smtpHandleMail, isShutdownDst, h, ih]
      · simp only [Bool.not_eq_true] at h
        simp [smtpRun, smtpHandleMail, isShutdownDst, h, ih]

/-- The memory due-scan only ever appends `RetryMail` messages to its
output accumulator. -/
theorem memoryScanLoop_not_ack (now : Nat) (fuel : Nat) :
    ∀ i queue out, HubMessage.RetryAgentSuspended ∉ out →
      HubMessage.RetryAgentSuspended ∉ scanEmitted (memoryScanLoop now fuel i queue out) := by
  induction fuel with
  | zero => intro i queue out h; exact h
  | succ fuel ih =>
    intro i queue out h
    simp only [memoryScanLoop]
    cases hq : queue[i]? with
    | none => simp [scanEmitted]
    | some e =>
      by_cases hd : e.due < now
      · simp only [hd, if_true]
        cases queue with
        | nil => simp [scanEmitted]
        | cons front rest =>
          exact ih (i + 1) rest _ (by simp [h])
      · simp [hd, scanEmitted, h]

/-- The due-scan as a whole never emits `RetryAgentSuspended`. -/
theorem memoryScan_not_ack (now : Nat) (queue : List MemEntry) :
    HubMessage.RetryAgentSuspended ∉ scanEmitted (memoryScan now queue) :=
  memoryScanLoop_not_ack now queue.length 0 queue [] (by simp)

/-- The memory retry-agent worker loop never posts `RetryAgentSuspended`
on the hub inbox: its only hub-inbox sends are `notify_retry_mail`. -/
theorem memoryAgentRun_not_ack (delay : Nat) :
    ∀ steps queue,
      HubMessage.RetryAgentSuspended ∉ emittedOf (memoryAgentRun delay queue steps) := by
  intro steps
  induction steps with
  | nil => intro queue; simp [memoryAgentRun, emittedOf]
  | cons step rest ih =>
    intro queue
    cases hc : step.ctl with
    | none =>
      simp only [memoryAgentRun, hc]
      cases hsc : memoryScan step.tScan queue with
      | error e => simp [emittedOf]
      | ok p =>
        cases hrun : memoryAgentRun delay p.2 rest with
        | error e => simp [Except.map, emittedOf, hrun]
        | ok out =>
          simp only [Except.map, hrun, emittedOf, List.mem_append, not_or]
          refine ⟨?_, ?_⟩
          · have h1 := memoryScan_not_ack step.tScan queue
            rw [hsc] at h1
            simpa [scanEmitted] using h1
          · have h2 := ih p.2
            rw [hrun] at h2
            exact h2
    | some ctl =>
      cases ctl with
      | Shutdown => simp [memoryAgentRun, hc, emittedOf]
      | QueueMail dstname mail =>
        simp only [memoryAgentRun, hc]
        cases hsc : memoryScan step.tScan
            (queue ++ [⟨step.tRecv + delay, dstname, mail⟩]) with
        | error e => simp [emittedOf]
        | ok p =>
          cases hrun : memoryAgentRun delay p.2 rest with
          | error e => simp [Except.map, emittedOf, hrun]
          | ok out =>
            simp only [Except.map, hrun, emittedOf, List.mem_append, not_or]
            refine ⟨?_, ?_⟩
            · have h1 := memoryScan_not_ack step.tScan
                (queue ++ [{ due := step.tRecv + delay, dstname := dstname, mail := mail }])
              rw [hsc] at h1
              simpa [scanEmitted] using h1
            · have h2 := ih p.2
              rw [hrun] at h2
              exact h2

/-- The filesystem due-scan only ever appends `RetryMail` messages. -/
theorem fsScanLoop_not_ack (now : Nat) :
    ∀ queue fs out, HubMessage.RetryAgentSuspended ∉ out →
      HubMessage.RetryAgentSuspended ∉ (fsScanLoop now queue fs out).1 := by
  intro queue
  induction queue with
  | nil => intro fs out h; exact h
  | cons q qs ih =>
    intro fs out h
    simp only [fsScanLoop]
    by_cases hd : q.due_time < now
    · simp only [hd, if_true]
      exact ih _ _ (by simp [h])
    · simp [hd, h]

/-- The filesystem retry-agent worker loop never posts
`RetryAgentSuspended` on the hub inbox. -/
theorem fsAgentRun_not_ack (delay : Nat) (cfgPath : String) :
    ∀ steps queue fs,
      HubMessage.RetryAgentSuspended ∉ (fsAgentRun delay cfgPath queue fs steps).1 := by
  intro steps
  induction steps with
  | nil => intro queue fs; simp [fsAgentRun]
  | cons step rest ih =>
    intro queue fs
    cases hc : step.ctl with
    | none =>
      simp only [fsAgentRun, hc, List.mem_append, not_or]
      exact ⟨fsScanLoop_not_ack step.tScan queue fs [] (by simp), ih _ _⟩
    | some ctl =>
      cases ctl with
      | Shutdown => simp [fsAgentRun, hc]
      | QueueMail dstname mail =>
        simp only [fsAgentRun, hc, List.mem_append, not_or]
        exact ⟨fsScanLoop_not_ack step.tScan _ _ [] (by simp), ih _ _⟩

/-- C2: the claim says each retry agent answers a `Suspend` control
message by posting `RetryAgentSuspended` and then stops emitting
`RetryMail`.  The agent worker loops in the repository match only the
`Shutdown` and `QueueMail` control variants — there is no `Suspend` arm
and no `confirm_suspension` call — so over every possible input trace
neither backend ever posts `RetryAgentSuspended` on the hub inbox, while
the hub's shutdown sequence blocks waiting for exactly that message. -/
theorem retryagents_never_confirm_suspension :
    (∀ delay queue steps,
      HubMessage.RetryAgentSuspended ∉ emittedOf (memoryAgentRun delay queue steps)) ∧
    (∀ delay cfgPath queue fs steps,
      HubMessage.RetryAgentSuspended ∉ (fsAgentRun delay cfgPath queue fs steps).1) :=
  ⟨fun delay queue steps => memoryAgentRun_not_ack delay steps queue,
   fun delay cfgPath queue fs steps => fsAgentRun_not_ack delay cfgPath steps queue fs⟩

/-- The fan-out send loop fails exactly when some listed destination has
no registered inbox. -/
theorem sendAll_error_iff (st : HubChannelState) (mail : Mail) :
    ∀ dstlist, (∃ e, sendAll st mail dstlist = Except.error e) ↔
      ∃ d ∈ dstlist, st.destinations.contains d = false := by
  intro dstlist
  induction dstlist with
  | nil => simp [sendAll]
  | cons d rest ih =>
    cases hd : st.destinations.contains d with
    | true =>
      have hmap : ∀ e, ((sendAll st mail rest).map (fun ds => (d, mail) :: ds) =
          Except.error e) ↔ sendAll st mail rest = Except.error e := by
        intro e; cases sendAll st mail rest <;> simp [Except.map]
      simp only [sendAll, queueMailForSending, hd, if_true]
      rw [exists_congr hmap, ih]
      constructor
      · rintro ⟨x, hx, hfx⟩
        exact ⟨x, List.mem_cons_of_mem d hx, hfx⟩
      · rintro ⟨x, hx, hfx⟩
        rcases List.mem_cons.mp hx with h | h
        · subst h; rw [hd] at hfx; cases hfx
        · exact ⟨x, h, hfx⟩
    | false =>
      simp only [sendAll, queueMailForSending, hd, Bool.false_eq_true, if_false]
      constructor
      · intro _; exact ⟨d, List.mem_cons_self d rest, hd⟩
      · intro _; exact ⟨"Failed to distribute mail", rfl⟩

/-- C10: on a `NewMail` whose source has no entry in the mapping table,
`handle_message` silently discards the mail — no `DeliverMail` is sent,
nothing else is posted, the loop continues, no panic; and on a mapped
source, the `.expect("Failed to distribute mail")` panic happens exactly
when some destination listed in the mapping entry has no registered
inbox. -/
theorem handle_newmail_panic_characterization (st : HubChannelState)
    (mappings : List (String × List String)) (srcname : String) (mail : Mail) :
    (lookupMapping mappings srcname = none →
      handleMessage st mappings (HubMessage.NewMail srcname mail) = Except.ok {}) ∧
    (∀ dstlist, lookupMapping mappings srcname = some dstlist →
      ((∃ e, handleMessage st mappings (HubMessage.NewMail srcname mail) =
          Except.error e) ↔
        ∃ d ∈ dstlist, st.destinations.contains d = false)) := by
  constructor
  · intro h; simp [handleMessage, h]
  · intro dstlist h
    simp only [handleMessage, h]
    rw [← sendAll_error_iff st mail dstlist]
    constructor
    · rintro ⟨e, he⟩
      cases hs : sendAll st mail dstlist with
      | error e2 => exact ⟨e2, rfl⟩
      | ok ds => rw [hs] at he; simp [Except.map] at he
    · rintro ⟨e, he⟩
      exact ⟨e, by rw [he]; rfl⟩

/-- The fan-out send loop on a fully registered destination list sends one
`DeliverMail` per listed name, in list order. -/
theorem sendAll_ok (st : HubChannelState) (mail : Mail) :
    ∀ dstlist, (∀ d ∈ dstlist, st.destinations.contains d = true) →
      sendAll st mail dstlist = Except.ok (dstlist.map (fun d => (d, mail))) := by
  intro dstlist
  induction dstlist with
  | nil => intro _; rfl
  | cons d rest ih =>
    intro h
    have hd := h d (List.mem_cons_self d rest)
    simp only [sendAll, queueMailForSending, hd, if_true]
    rw [ih (fun x hx => h x (List.mem_cons_of_mem d hx))]
    rfl

/-- Counting one `(destination, mail)` pair among the sends of a single
fan-out: the listed destination's multiplicity when the mail matches. -/
theorem countP_pair_map (dstlist : List String) (mail : Mail) (d : String) (m : Mail) :
    List.countP (fun p => decide (p = (d, m))) (dstlist.map (fun x => (x, mail))) =
      if mail = m then dstlist.count d else 0 := by
  induction dstlist with
  | nil => by_cases hm : mail = m <;> simp [hm]
  | cons x rest ih =>
    rw [List.map_cons, List.countP_cons, ih]
    by_cases hm : mail = m
    · subst hm
      by_cases hx : x = d
      · subst hx; simp [List.count_cons]
      · simp [List.count_cons, hx, Prod.ext_iff]
    · simp [hm, Prod.ext_iff]

/-- C1 counterexample: the mapping table accepts a value list naming the
same destination twice (validation only checks that each listed name is a
configured destination), and the fan-out loop then sends the mail once per
occurrence.  With mapping `s → [d, d]` one `NewMail` puts *two*
`DeliverMail` copies in destination `d`'s inbox, while the claim's
multiset `{ mail_i : d ∈ m[s_i] }` holds only one. -/
theorem fanout_duplicate_destination_counterexample :
    fanoutDeliveries ⟨["d"], true, true, true⟩ [("s", ["d", "d"])] [("s", mailA)] =
      Except.ok [("d", mailA), ("d", mailA)] ∧
    List.countP (fun p => decide (p = ("d", mailA)))
      [("d", mailA), ("d", mailA)] = 2 ∧
    List.countP (fun e =>
        decide (e.2 = mailA ∧ "d" ∈ (lookupMapping [("s", ["d", "d"])] e.1).getD []))
      [("s", mailA)] = 1 :=
  ⟨rfl, rfl, rfl⟩

/-- The per-event indicator of the claim's multiset, under duplicate-free
mapping value lists, agrees with the occurrence count. -/
theorem indicator_eq_of_nodup (mappings : List (String × List String))
    (hnd : ∀ p ∈ mappings, p.2.Nodup) (d : String) (mail : Mail)
    (e : String × Mail) :
    (if e.2 = mail then ((lookupMapping mappings e.1).getD []).count d else 0) =
      (if e.2 = mail ∧ d ∈ (lookupMapping mappings e.1).getD [] then 1 else 0) := by
  by_cases he : e.2 = mail
  · simp only [he, if_true, true_and]
    cases hl : lookupMapping mappings e.1 with
    | none => simp
    | some l =>
      have hlnd : l.Nodup := by
        unfold lookupMapping at hl
        cases hf : mappings.find? (fun p => p.1 == e.1) with
        | none => rw [hf] at hl; simp at hl
        | some p =>
          rw [hf] at hl
          simp only [Option.map] at hl
          have hp2 : p.2 = l := by simpa using hl
          have hp := List.mem_of_find?_eq_some hf
          exact hp2 ▸ hnd p hp
      by_cases hdm : d ∈ l
      · simp [List.count_eq_one_of_mem hlnd hdm, hdm]
      · simp [List.count_eq_zero_of_not_mem hdm, hdm]
  · simp [he]

/-- Summed occurrence counts collapse to the claim's event count when
every mapping list is duplicate-free. -/
theorem sum_indicator_eq_countP (mappings : List (String × List String))
    (hnd : ∀ p ∈ mappings, p.2.Nodup) (d : String) (mail : Mail) :
    ∀ events : List (String × Mail),
      (events.map (fun e =>
        if e.2 = mail then ((lookupMapping mappings e.1).getD []).count d else 0)).sum =
      List.countP (fun e =>
        decide (e.2 = mail ∧ d ∈ (lookupMapping mappings e.1).getD [])) events := by
  intro events
  induction events with
  | nil => rfl
  | cons e rest ih =>
    rw [List.map_cons, List.sum_cons, List.countP_cons, ih,
      indicator_eq_of_nodup mappings hnd d mail e]
    by_cases hc : e.2 = mail ∧ d ∈ (lookupMapping mappings e.1).getD []
    · simp [hc, Nat.add_comm]
    · simp [hc]

/-- C1 amended: processing any sequence of `NewMail` events whose mapped
destinations are all registered sends, per event, exactly one
`DeliverMail` clone per *occurrence* of a destination in the source's
mapping list, in list order; hence the multiset of `DeliverMail` at
destination `d` counts each event's mail with multiplicity equal to the
number of occurrences of `d` in `m[s_i]` — which is the claim's multiset
`{ mail_i : d ∈ m[s_i] }` exactly when every mapping list is
duplicate-free. -/
theorem fanout_multiset_with_list_multiplicity (st : HubChannelState)
    (mappings : List (String × List String)) (events : List (String × Mail))
    (hreg : ∀ e ∈ events, ∀ d ∈ (lookupMapping mappings e.1).getD [],
      st.destinations.contains d = true) :
    (∀ srcname mail dstlist, lookupMapping mappings srcname = some dstlist →
      (∀ d ∈ dstlist, st.destinations.contains d = true) →
      handleMessage st mappings (HubMessage.NewMail srcname mail) =
        Except.ok { deliveries := dstlist.map (fun d => (d, mail)) }) ∧
    ∃ ds, fanoutDeliveries st mappings events = Except.ok ds ∧
      (∀ d mail, List.countP (fun p => decide (p = (d, mail))) ds =
        (events.map (fun e =>
          if e.2 = mail then ((lookupMapping mappings e.1).getD []).count d else 0)).sum) ∧
      ((∀ p ∈ mappings, p.2.Nodup) → ∀ d mail,
        List.countP (fun p => decide (p = (d, mail))) ds =
          List.countP (fun e =>
            decide (e.2 = mail ∧ d ∈ (lookupMapping mappings e.1).getD [])) events) := by
  have hper : ∀ srcname mail dstlist, lookupMapping mappings srcname = some dstlist →
      (∀ d ∈ dstlist, st.destinations.contains d = true) →
      handleMessage st mappings (HubMessage.NewMail srcname mail) =
        Except.ok { deliveries := dstlist.map (fun d => (d, mail)) } := by
    intro srcname mail dstlist hl hr
    simp only [handleMessage, hl]
    rw [sendAll_ok st mail dstlist hr]
    rfl
  refine ⟨hper, ?_⟩
  have main : ∃ ds, fanoutDeliveries st mappings events = Except.ok ds ∧
      ∀ d mail, List.countP (fun p => decide (p = (d, mail))) ds =
        (events.map (fun e =>
          if e.2 = mail then ((lookupMapping mappings e.1).getD []).count d else 0)).sum := by
    clear hper
    induction events with
    | nil => exact ⟨[], rfl, by simp⟩
    | cons e rest ih =>
      obtain ⟨ds, hds, hcount⟩ := ih (fun x hx => hreg x (List.mem_cons_of_mem e hx))
      have hhead := hreg e (List.mem_cons_self e rest)
      obtain ⟨s, m⟩ := e
      cases hl : lookupMapping mappings s with
      | none =>
        refine ⟨ds, ?_, ?_⟩
        · simp only [fanoutDeliveries, handleMessage, hl, hds, Except.map]
          rfl
        · intro d mail
          simp [hcount d mail, hl]
      | some dstlist =>
        rw [hl] at hhead
        refine ⟨dstlist.map (fun x => (x, m)) ++ ds, ?_, ?_⟩
        · simp only [fanoutDeliveries, handleMessage, hl]
          rw [sendAll_ok st m dstlist (by simpa using hhead)]
          simp [Except.map, hds]
        · intro d mail
          rw [List.countP_append, hcount d mail, countP_pair_map]
          simp [hl]
  obtain ⟨ds, hds, hcount⟩ := main
  refine ⟨ds, hds, hcount, ?_⟩
  intro hnd d mail
  rw [hcount d mail]
  exact sum_indicator_eq_countP mappings hnd d mail events

/-- C1 witness: the amended fan-out statement at a concrete two-destination
mapping and a one-event trace. -/
theorem fanout_multiset_witness :
    ∃ ds, fanoutDeliveries ⟨["d1", "d2"], true, true, true⟩ [("s", ["d1", "d2"])]
        [("s", mailA)] = Except.ok ds ∧
      (∀ d mail, List.countP (fun p => decide (p = (d, mail))) ds =
        (([("s", mailA)] : List (String × Mail)).map (fun e =>
          if e.2 = mail then
            ((lookupMapping [("s", ["d1", "d2"])] e.1).getD []).count d
          else 0)).sum) ∧
      ((∀ p ∈ [("s", ["d1", "d2"])], p.2.Nodup) → ∀ d mail,
        List.countP (fun p => decide (p = (d, mail))) ds =
          List.countP (fun e =>
            decide (e.2 = mail ∧ d ∈ (lookupMapping [("s", ["d1", "d2"])] e.1).getD []))
            [("s", mailA)]) :=
  (fanout_multiset_with_list_multiplicity ⟨["d1", "d2"], true, true, true⟩
    [("s", ["d1", "d2"])] [("s", mailA)] (by decide)).2

/-- The destination check of one mapping entry passes exactly when every
listed name is a configured destination. -/
theorem checkMappingDsts_ok_iff (c : ConfigContainer) :
    ∀ l, checkMappingDsts c l = Except.ok () ↔
      ∀ d ∈ l, c.destinations.contains d = true := by
  intro l
  induction l with
  | nil => simp [checkMappingDsts]
  | cons d rest ih =>
    simp only [checkMappingDsts]
    cases hd : c.destinations.contains d with
    | true =>
      simp only [hd, Bool.not_true, Bool.false_eq_true, if_false]
      rw [ih]
      constructor
      · intro h x hx
        rcases List.mem_cons.mp hx with rfl | hx2
        · exact hd
        · exact h x hx2
      · intro h x hx
        exact h x (List.mem_cons_of_mem d hx)
    | false =>
      simp only [hd, Bool.not_false, if_true]
      constructor
      · intro h; cases h
      · intro h
        have hcontra := h d (List.mem_cons_self d rest)
        rw [hd] at hcontra
        cases hcontra

/-- The mapping-table check passes exactly when every entry names a
configured source and only configured destinations. -/
theorem checkMappings_ok_iff (c : ConfigContainer) :
    ∀ l, checkMappings c l = Except.ok () ↔
      ∀ p ∈ l, c.sources.contains p.1 = true ∧
        ∀ d ∈ p.2, c.destinations.contains d = true := by
  intro l
  induction l with
  | nil => simp [checkMappings]
  | cons p rest ih =>
    obtain ⟨srcname, dsts⟩ := p
    simp only [List.forall_mem_cons]
    constructor
    · intro h
      by_cases hs : c.sources.contains srcname = true
      · rw [checkMappings, hs] at h
        simp only [Bool.not_true, Bool.false_eq_true, if_false] at h
        cases hd : checkMappingDsts c dsts with
        | error e => rw [hd] at h; cases h
        | ok u =>
          cases u
          rw [hd] at h
          exact ⟨⟨hs, (checkMappingDsts_ok_iff c dsts).mp hd⟩, ih.mp h⟩
      · rw [Bool.not_eq_true] at hs
        rw [checkMappings, hs] at h
        cases h
    · rintro ⟨⟨hs, hdsts⟩, hrest⟩
      rw [checkMappings, hs]
      simp only [Bool.not_true, Bool.false_eq_true, if_false]
      rw [(checkMappingDsts_ok_iff c dsts).mpr hdsts]
      exact ih.mpr hrest

/-- The source-coverage check passes exactly when every configured source
appears as a mapping key. -/
theorem checkSourcesMapped_ok_iff (c : ConfigContainer) :
    ∀ l, checkSourcesMapped c l = Except.ok () ↔
      ∀ s ∈ l, (List.any c.mappings (fun p => p.1 == s)) = true := by
  intro l
  induction l with
  | nil => simp [checkSourcesMapped]
  | cons s rest ih =>
    simp only [checkSourcesMapped]
    cases hs : List.any c.mappings (fun p => p.1 == s) with
    | true =>
      simp only [hs, Bool.not_true, Bool.false_eq_true, if_false]
      rw [ih]
      constructor
      · intro h x hx
        rcases List.mem_cons.mp hx with rfl | hx2
        · exact hs
        · exact h x hx2
      · intro h x hx
        exact h x (List.mem_cons_of_mem s hx)
    | false =>
      simp only [hs, Bool.not_false, if_true]
      constructor
      · intro h; cases h
      · intro h
        have hcontra := h s (List.mem_cons_self s rest)
        rw [hs] at hcontra
        cases hcontra

/-- The retry-agent check passes exactly when a configured filesystem
retry agent has an existing path. -/
theorem checkRetryPath_ok_iff (c : ConfigContainer) (fsExists : String → Bool) :
    checkRetryPath c fsExists = Except.ok () ↔
      ∀ delay path, c.retryagent = some (RetryAgentConfig.filesystem delay path) →
        fsExists path = true := by
  unfold checkRetryPath
  cases hra : c.retryagent with
  | none =>
    constructor
    · intro _ delay path h; cases h
    · intro _; rfl
  | some cfg =>
    cases cfg with
    | memory delay =>
      constructor
      · intro _ d p h; cases h
      · intro _; rfl
    | filesystem delay path =>
      cases hp : fsExists path with
      | true =>
        simp only [hp, Bool.not_true, Bool.false_eq_true, if_false]
        constructor
        · intro _ d p h
          injection h with h2
          injection h2 with h3 h4
          rw [← h4]
          exact hp
        · intro _; trivial
      | false =>
        simp only [hp, Bool.not_false, if_true]
        constructor
        · intro h; cases h
        · intro h
          have hcontra := h delay path rfl
          rw [hp] at hcontra
          cases hcontra

/-- C9: `ConfigContainer::from_file` returns `Ok` exactly when the file
opened and parsed (with no unknown and no mistyped field) and the parsed
container passes validation: every mapping key names a configured source,
every listed mapping value names a configured destination, every
configured source appears as a mapping key, and a configured filesystem
retry agent's path exists. -/
theorem config_from_file_ok_iff_valid (parsed : Option ConfigContainer)
    (fsExists : String → Bool) :
    (∃ c, fromFile parsed fsExists = Except.ok c) ↔
      ∃ c, parsed = some c ∧
        (∀ p ∈ c.mappings, c.sources.contains p.1 = true ∧
          ∀ d ∈ p.2, c.destinations.contains d = true) ∧
        (∀ s ∈ c.sources, (List.any c.mappings (fun p => p.1 == s)) = true) ∧
        (∀ delay path, c.retryagent = some (RetryAgentConfig.filesystem delay path) →
          fsExists path = true) := by
  cases parsed with
  | none => simp [fromFile]
  | some config =>
    have hvalid : config.validate fsExists = Except.ok () ↔
        (∀ p ∈ config.mappings, config.sources.contains p.1 = true ∧
          ∀ d ∈ p.2, config.destinations.contains d = true) ∧
        (∀ s ∈ config.sources, (List.any config.mappings (fun p => p.1 == s)) = true) ∧
        (∀ delay path,
          config.retryagent = some (RetryAgentConfig.filesystem delay path) →
            fsExists path = true) := by
      unfold ConfigContainer.validate
      cases hm : checkMappings config config.mappings with
      | error e =>
        have h1 := checkMappings_ok_iff config config.mappings
        rw [hm] at h1
        constructor
        · intro h; cases h
        · rintro ⟨ha, _, _⟩
          cases h1.mpr ha
      | ok u =>
        cases u
        have h1 := (checkMappings_ok_iff config config.mappings).mp hm
        cases hsrc : checkSourcesMapped config config.sources with
        | error e =>
          have h2 := checkSourcesMapped_ok_iff config config.sources
          rw [hsrc] at h2
          constructor
          · intro h; cases h
          · rintro ⟨_, hb, _⟩
            cases h2.mpr hb
        | ok u =>
          cases u
          have h2 := (checkSourcesMapped_ok_iff config config.sources).mp hsrc
          rw [checkRetryPath_ok_iff config fsExists]
          constructor
          · intro h3; exact ⟨h1, h2, h3⟩
          · rintro ⟨_, _, h3⟩; exact h3
    constructor
    · rintro ⟨c, hc⟩
      cases hv : config.validate fsExists with
      | error e =>
        exfalso
        have herr : fromFile (some config) fsExists = Except.error e := by
          simp only [fromFile, hv]
        rw [herr] at hc
        cases hc
      | ok u =>
        cases u
        exact ⟨config, rfl, hvalid.mp hv⟩
    · rintro ⟨c, hc, hcond⟩
      have hcc : c = config := by
        injection hc with h
        exact h.symm
      subst hcc
      have hv := hvalid.mpr hcond
      exact ⟨c, by simp only [fromFile, hv]⟩

/-- A serialized byte array deserializes to the original bytes. -/
theorem jsonNats_map (l : List Nat) : jsonNats (l.map Json.num) = some l := by
  induction l with
  | nil => rfl
  | cons n rest ih => simp [jsonNats, ih]

/-- Serializing the retry-file record and parsing it back yields the
original record. -/
theorem fromJson_toJson (m : QueuedRetryMailModel) :
    QueuedRetryMailModel.fromJson? m.toJson = some m := by
  simp [QueuedRetryMailModel.toJson, QueuedRetryMailModel.fromJson?, jsonField,
    jsonNats_map]

/-- The startup queue of the filesystem backend is sorted by
non-decreasing due time. -/
theorem fsStartQueue_sorted (fs : FsState) :
    List.Sorted (fun a b => a.due_time ≤ b.due_time) (fsStartQueue fs) := by
  unfold fsStartQueue
  refine List.Pairwise.imp ?_ (List.sorted_mergeSort ?_ ?_ (loadFromFs fs))
  · exact fun hab => by simpa using hab
  · intro a b c hab hbc
    simp only [decide_eq_true_eq] at hab hbc ⊢
    exact le_trans hab hbc
  · intro a b
    rcases Nat.le_total a.due_time b.due_time with h | h <;> simp [h]

/-- C5: round-trip persistence of the filesystem retry agent.  The record
written on `QueueRetry` parses back to the identical record; the entry
rebuilt at startup from that record has the same due time and destination
name, and — because every queued `Mail` was itself built with
`Mail::from_rfc822`, whose hash is recomputed from the stored bytes — the
rebuilt `Mail` equals the original in `from_src`, `data` and `hash`; and
the initial queue formed at startup is sorted by non-decreasing
`due_time`. -/
theorem filesystem_retry_roundtrip (q : QueuedRetryMail)
    (hq : q.mail = Mail.from_rfc822 q.mail.from_src q.mail.data) (fs : FsState)
    (path : String) :
    QueuedRetryMailModel.fromJson? (QueuedRetryMailModel.ofQueued q).toJson =
      some (QueuedRetryMailModel.ofQueued q) ∧
    (restoredOf path (QueuedRetryMailModel.ofQueued q)).due_time = q.due_time ∧
    (restoredOf path (QueuedRetryMailModel.ofQueued q)).dstname = q.dstname ∧
    (restoredOf path (QueuedRetryMailModel.ofQueued q)).mail = q.mail ∧
    List.Sorted (fun a b => a.due_time ≤ b.due_time) (fsStartQueue fs) := by
  refine ⟨fromJson_toJson _, rfl, rfl, ?_, fsStartQueue_sorted fs⟩
  rw [hq]
  rfl

/-- C5 witness: the round-trip statement at a concrete entry and a
concrete two-file directory. -/
theorem filesystem_retry_roundtrip_witness :
    QueuedRetryMailModel.fromJson?
        (QueuedRetryMailModel.ofQueued
          ⟨5, "d", Mail.from_rfc822 "s" [1, 2], "/spool/x.json"⟩).toJson =
      some (QueuedRetryMailModel.ofQueued
        ⟨5, "d", Mail.from_rfc822 "s" [1, 2], "/spool/x.json"⟩) ∧
    (restoredOf "/spool/x.json"
        (QueuedRetryMailModel.ofQueued
          ⟨5, "d", Mail.from_rfc822 "s" [1, 2], "/spool/x.json"⟩)).due_time = 5 ∧
    (restoredOf "/spool/x.json"
        (QueuedRetryMailModel.ofQueued
          ⟨5, "d", Mail.from_rfc822 "s" [1, 2], "/spool/x.json"⟩)).dstname = "d" ∧
    (restoredOf "/spool/x.json"
        (QueuedRetryMailModel.ofQueued
          ⟨5, "d", Mail.from_rfc822 "s" [1, 2], "/spool/x.json"⟩)).mail =
      Mail.from_rfc822 "s" [1, 2] ∧
    List.Sorted (fun a b => a.due_time ≤ b.due_time)
      (fsStartQueue
        [("a.json", QueuedRetryMailModel.toJson ⟨9, "d", "s", []⟩),
         ("b.json", QueuedRetryMailModel.toJson ⟨2, "d2", "s", [1]⟩)]) :=
  filesystem_retry_roundtrip ⟨5, "d", Mail.from_rfc822 "s" [1, 2], "/spool/x.json"⟩
    rfl
    [("a.json", QueuedRetryMailModel.toJson ⟨9, "d", "s", []⟩),
     ("b.json", QueuedRetryMailModel.toJson ⟨2, "d2", "s", [1]⟩)]
    "/spool/x.json"

/-- A prefix of messages whose dispatch neither panics nor stops the loop
passes through a blocking hub loop unchanged. -/
theorem hubLoop_append (st : HubChannelState)
    (mappings : List (String × List String)) :
    ∀ pre l, (∀ m ∈ pre, dispatchContinues st mappings m = true) →
      hubLoop st mappings (pre ++ l) =
        (hubLoop st mappings l).prepend (pre.map HubAction.dispatch) := by
  intro pre
  induction pre with
  | nil =>
    intro l _
    simp only [List.nil_append, List.map_nil]
    cases hubLoop st mappings l <;> simp [LoopExit.prepend]
  | cons m pre ih =>
    intro l h
    have hm := h m (List.mem_cons_self m pre)
    unfold dispatchContinues at hm
    cases hh : handleMessage st mappings m with
    | error e => rw [hh] at hm; cases hm
    | ok d =>
      rw [hh] at hm
      have hstop : d.stop = false := by simpa using hm
      have heq : hubLoop st mappings ((m :: pre) ++ l) =
          (hubLoop st mappings (pre ++ l)).prepend [HubAction.dispatch m] := by
        simp only [List.cons_append, hubLoop, hh, hstop, Bool.false_eq_true, if_false]
        rfl
      rw [heq, ih l (fun x hx => h x (List.mem_cons_of_mem m hx))]
      cases hubLoop st mappings l <;> simp [LoopExit.prepend]

/-- Dispatching `Shutdown` leaves a blocking hub loop at once. -/
theorem hubLoop_shutdown (st : HubChannelState)
    (mappings : List (String × List String)) (rest : List HubMessage) :
    hubLoop st mappings (HubMessage.Shutdown :: rest) =
      LoopExit.broke [HubAction.dispatch HubMessage.Shutdown] rest := rfl

/-- Dispatching `RetryAgentSuspended` leaves a blocking hub loop at once. -/
theorem hubLoop_suspended (st : HubChannelState)
    (mappings : List (String × List String)) (rest : List HubMessage) :
    hubLoop st mappings (HubMessage.RetryAgentSuspended :: rest) =
      LoopExit.broke [HubAction.dispatch HubMessage.RetryAgentSuspended] rest := rfl

/-- A flush over messages whose dispatch does not panic dispatches each of
them in order. -/
theorem hubFlush_all_ok (st : HubChannelState)
    (mappings : List (String × List String)) :
    ∀ l, (∀ m ∈ l, (handleMessage st mappings m).isOk = true) →
      hubFlush st mappings l = (false, l.map HubAction.dispatch) := by
  intro l
  induction l with
  | nil => intro _; rfl
  | cons m rest ih =>
    intro h
    have hm := h m (List.mem_cons_self m rest)
    cases hh : handleMessage st mappings m with
    | error e => rw [hh] at hm; simp [Except.isOk, Except.toBool] at hm
    | ok d =>
      simp only [hubFlush, hh]
      rw [ih (fun x hx => h x (List.mem_cons_of_mem m hx))]
      rfl

/-- C3: after the distribution loop exits on `Shutdown`, `run()` performs
the shutdown steps in order: close every per-source control channel, join
every source; send `Suspend` and keep dispatching hub-inbox messages
normally until `RetryAgentSuspended` is received; close every destination
inbox and join every destination; non-blockingly consume and dispatch the
remaining hub-inbox messages; and only last close the retry-agent control
channel and join the retry agent. -/
theorem hub_run_shutdown_order (st : HubChannelState)
    (mappings : List (String × List String)) (sourceNames destNames : List String)
    (hasRetryAgent : Bool) (pre mid post : List HubMessage)
    (h1 : ∀ m ∈ pre, dispatchContinues st mappings m = true)
    (h2 : ∀ m ∈ mid, dispatchContinues st mappings m = true)
    (h3 : ∀ m ∈ post,
      (handleMessage { st with destinations := [] } mappings m).isOk = true) :
    runFromDistributionLoop st mappings sourceNames destNames hasRetryAgent
        (pre ++ HubMessage.Shutdown ::
          (mid ++ HubMessage.RetryAgentSuspended :: post)) =
      RunResult.finished
        (pre.map HubAction.dispatch ++ [HubAction.dispatch HubMessage.Shutdown] ++
          [HubAction.closeSourceChannels] ++ sourceNames.map HubAction.joinSource ++
          [HubAction.sendSuspend] ++ mid.map HubAction.dispatch ++
          [HubAction.dispatch HubMessage.RetryAgentSuspended] ++
          [HubAction.closeDestinationInboxes] ++
          destNames.map HubAction.joinDestination ++
          post.map HubAction.dispatch ++ [HubAction.closeRetryChannel] ++
          (if hasRetryAgent then [HubAction.joinRetryAgent] else [])) := by
  unfold runFromDistributionLoop
  rw [hubLoop_append st mappings pre _ h1, hubLoop_shutdown]
  simp only [LoopExit.prepend]
  rw [hubLoop_append st mappings mid _ h2, hubLoop_suspended]
  simp only [LoopExit.prepend]
  rw [hubFlush_all_ok _ mappings post h3]
  simp [List.append_assoc]

/-- C3 witness: the shutdown-order statement at a concrete configuration
with one source, one destination, a retry agent, and in-flight traffic in
every phase. -/
theorem hub_run_shutdown_order_witness :
    runFromDistributionLoop ⟨["d"], true, true, true⟩ [("s", ["d"])] ["s"] ["d"] true
        ([HubMessage.NewMail "s" mailA] ++ HubMessage.Shutdown ::
          ([HubMessage.RetryMail "d" mailA] ++ HubMessage.RetryAgentSuspended ::
            [HubMessage.SendingMailFailed "d" mailA])) =
      RunResult.finished
        ([HubMessage.NewMail "s" mailA].map HubAction.dispatch ++
          [HubAction.dispatch HubMessage.Shutdown] ++
          [HubAction.closeSourceChannels] ++ ["s"].map HubAction.joinSource ++
          [HubAction.sendSuspend] ++
          [HubMessage.RetryMail "d" mailA].map HubAction.dispatch ++
          [HubAction.dispatch HubMessage.RetryAgentSuspended] ++
          [HubAction.closeDestinationInboxes] ++ ["d"].map HubAction.joinDestination ++
          [HubMessage.SendingMailFailed "d" mailA].map HubAction.dispatch ++
          [HubAction.closeRetryChannel] ++
          (if true then [HubAction.joinRetryAgent] else [])) :=
  hub_run_shutdown_order ⟨["d"], true, true, true⟩ [("s", ["d"])] ["s"] ["d"] true
    [HubMessage.NewMail "s" mailA] [HubMessage.RetryMail "d" mailA]
    [HubMessage.SendingMailFailed "d" mailA]
    (by decide) (by decide) (by decide)

end Idlemail
